import Mathlib

/-!
# Verification development for the DomainTools client

Shallow embedding, in Lean 4, of the parts of the `domaintools_client`
Python package that the specification's testable properties talk about:

* `ConfigManager` and the `DomainToolsConfig` pydantic model
  (`domaintools_client/config/manager.py`);
* `DomainToolsClient._handle_exception` and `batch_domain_profiles`
  (`domaintools_client/api/client.py`, `api/exceptions.py`);
* `OutputFormatter._build_tree` / `_format_value`
  (`domaintools_client/formatters/output.py`).

Python dict values that can flow into the configuration are modelled by
`PyVal` (string, int, or `None`); a dict with the six known configuration
keys is modelled by `RawConfig`, where an absent key is `none` and a key
present with value `None` is `some .pnone`.  Filesystem and process state
is passed explicitly: the YAML/JSON config files are `FileState` values
and the `DOMAINTOOLS_*` environment variables an `EnvState` record.
-/

namespace DomaintoolsClient

/-- A Python value that can appear in a configuration dict: a string,
an int, or `None`. -/
inductive PyVal where
  | str (s : String)
  | int (n : Int)
  | pnone
deriving DecidableEq, Repr

/-- The `config_data` dict of `ConfigManager.load`, restricted to the six
configuration keys the code and the pydantic model know about.  `none`
means the key is absent from the dict; `some v` that it is present with
value `v` (possibly `PyVal.pnone`, i.e. Python `None`). -/
structure RawConfig where
  api_key : Option PyVal := none
  api_secret : Option PyVal := none
  api_url : Option PyVal := none
  timeout : Option PyVal := none
  max_retries : Option PyVal := none
  output_format : Option PyVal := none
deriving DecidableEq, Repr

/-- The validated `DomainToolsConfig` pydantic model.  `api_secret` holds
the secret's plain value (the `SecretStr` wrapper only affects display,
which we do not model). -/
@[ext]
structure DomainToolsConfig where
  api_key : String
  api_secret : String
  api_url : Option String := none
  timeout : Int := 30
  max_retries : Int := 3
  output_format : String := "json"
deriving DecidableEq, Repr

/-- Valid digit run for Python `int()`: digits with single underscores
allowed between digits (the preceding character is always a digit when
this is reached). -/
def pyIntDigitsAux : List Char → Bool
  | [] => true
  | c :: rest =>
    if c.isDigit then pyIntDigitsAux rest
    else if c = '_' then
      match rest with
      | [] => false
      | d :: rest2 => d.isDigit && pyIntDigitsAux (d :: rest2)
    else false

/-- A nonempty digit run, starting with a digit, underscores only between
digits. -/
def pyUDigits : List Char → Bool
  | [] => false
  | c :: rest => c.isDigit && pyIntDigitsAux rest

/-- Numeric value of a digit run, skipping underscores. -/
def digitsVal (cs : List Char) : Nat :=
  cs.foldl (fun acc c => if c = '_' then acc else acc * 10 + (c.toNat - '0'.toNat)) 0

/-- Model of Python `int(s)` on a string: surrounding whitespace stripped,
optional sign, then ASCII digits with single underscores between digits;
`none` models the `ValueError` raised on anything else. -/
def pyInt? (s : String) : Option Int :=
  let cs := (((s.toList.dropWhile Char.isWhitespace).reverse.dropWhile
    Char.isWhitespace).reverse)
  match cs with
  | '+' :: rest => if pyUDigits rest then some (Int.ofNat (digitsVal rest)) else none
  | '-' :: rest => if pyUDigits rest then some (-(Int.ofNat (digitsVal rest))) else none
  | _ => if pyUDigits cs then some (Int.ofNat (digitsVal cs)) else none

/-- pydantic validation of a required `str` field (`api_key`,
`api_secret`): present and a string, anything else (absent, `None`, int)
is a validation error.  pydantic v2 does not coerce non-strings to `str`. -/
def vStr (field : Option PyVal) : Except String String :=
  match field with
  | some (.str s) => .ok s
  | _ => .error "string required"

/-- pydantic validation of the `Optional[str]` field `api_url`: absent or
`None` give `none`, a string is accepted, an int is rejected. -/
def vUrl (field : Option PyVal) : Except String (Option String) :=
  match field with
  | none => .ok none
  | some .pnone => .ok none
  | some (.str s) => .ok (some s)
  | some (.int _) => .error "string required"

/-- pydantic validation of an `int` field with a default (`timeout`,
`max_retries`): absent gives the default, an int is accepted, a string is
coerced when it parses as an integer (pydantic v2 lax mode), `None` and
unparseable strings are rejected. -/
def vIntD (dflt : Int) (field : Option PyVal) : Except String Int :=
  match field with
  | none => .ok dflt
  | some (.int n) => .ok n
  | some (.str s) =>
    match pyInt? s with
    | some n => .ok n
    | none => .error "integer required"
  | some .pnone => .error "integer required"

/-- pydantic validation of a `str` field with a default (`output_format`):
absent gives the default, a string is accepted, anything else rejected. -/
def vStrD (dflt : String) (field : Option PyVal) : Except String String :=
  match field with
  | none => .ok dflt
  | some (.str s) => .ok s
  | _ => .error "string required"

/-- Embedding of `DomainToolsConfig(**config_data)`: validate every field; any field
failure is a `ValidationError` (which `load` re-raises as `ValueError`). -/
def validateConfig (d : RawConfig) : Except String DomainToolsConfig :=
  match vStr d.api_key, vStr d.api_secret, vUrl d.api_url,
      vIntD 30 d.timeout, vIntD 3 d.max_retries, vStrD "json" d.output_format with
  | .ok key, .ok secret, .ok url, .ok tmo, .ok mr, .ok fmt =>
    .ok { api_key := key, api_secret := secret, api_url := url,
          timeout := tmo, max_retries := mr, output_format := fmt }
  | _, _, _, _, _, _ => .error "Invalid configuration"

/-- The `api` section of a YAML config file, as seen through
`yaml_data["api"].get(...)`: a field models the value `.get` returns for
that key, with `none` meaning the key is absent (`.get` then yields
Python `None`). -/
structure YamlApi where
  key : Option PyVal := none
  secret : Option PyVal := none
  url : Option PyVal := none
deriving DecidableEq, Repr

/-- The `settings` section of a YAML config file. -/
structure YamlSettings where
  timeout : Option PyVal := none
  max_retries : Option PyVal := none
  output_format : Option PyVal := none
deriving DecidableEq, Repr

/-- A parsed YAML config file: optional `api` and `settings` sections.
A YAML document that parses to something empty or without these sections
is modelled by both sections being `none` (the code then contributes no
keys, exactly as for a falsy `yaml_data`). -/
structure YamlData where
  api : Option YamlApi := none
  settings : Option YamlSettings := none
deriving DecidableEq, Repr

/-- State of a config file on disk: absent, present but failing to parse
(`OSError`/`yaml.YAMLError` for YAML, `json.JSONDecodeError` for JSON),
or present with parsed content. -/
inductive FileState (α : Type) where
  | absent
  | parseError
  | content (a : α)
deriving DecidableEq, Repr

/-- The six `DOMAINTOOLS_*` environment variables, each as returned by
`os.getenv` (`none` when unset). -/
structure EnvState where
  api_key : Option String := none
  api_secret : Option String := none
  api_url : Option String := none
  timeout : Option String := none
  max_retries : Option String := none
  output_format : Option String := none
deriving DecidableEq, Repr

/-- The warning line printed when reading the YAML config file fails. -/
def yamlWarning : String := "Warning: Error reading YAML config"

/-- File phase of `ConfigManager.load` (manager.py lines 78-108): build
`config_data` from the YAML config file when one was selected and exists,
`elif` from the JSON config file; a YAML parse failure prints a warning
and leaves `config_data` empty, a JSON parse failure is silently passed
over.  Returns the dict together with the warnings printed. -/
def loadFileData (yaml : FileState YamlData) (jsonFile : FileState RawConfig) :
    RawConfig × List String :=
  match yaml with
  | .content y =>
    let d1 : RawConfig :=
      match y.api with
      | some a =>
        { api_key := some (a.key.getD .pnone),
          api_secret := some (a.secret.getD .pnone),
          api_url := some (a.url.getD .pnone) }
      | none => {}
    let d2 : RawConfig :=
      match y.settings with
      | some s =>
        { d1 with
          timeout := some (s.timeout.getD (.int 30)),
          max_retries := some (s.max_retries.getD (.int 3)),
          output_format := some (s.output_format.getD (.str "table")) }
      | none => d1
    (d2, [])
  | .parseError => ({}, [yamlWarning])
  | .absent =>
    match jsonFile with
    | .content j => (j, [])
    | .parseError => ({}, [])
    | .absent => ({}, [])

/-- One step of the environment-variable loop for a string-valued key:
`os.getenv` returning an unset or empty value (falsy) leaves the dict
entry alone, otherwise the value overwrites it. -/
def applyEnvStr (cur : Option PyVal) (v : Option String) : Option PyVal :=
  match v with
  | some s => if s ≠ "" then some (.str s) else cur
  | none => cur

/-- One step of the environment-variable loop for `timeout`/`max_retries`:
a truthy value is passed through `int(...)`; on `ValueError` the value is
dropped and the entry keeps what it had. -/
def applyEnvInt (cur : Option PyVal) (v : Option String) : Option PyVal :=
  match v with
  | some s =>
    if s ≠ "" then
      match pyInt? s with
      | some n => some (.int n)
      | none => cur
    else cur
  | none => cur

/-- Environment phase of `ConfigManager.load` (manager.py lines 110-129):
each `DOMAINTOOLS_*` variable, when truthy, overwrites its configuration
key, with the numeric keys parsed via `int` and dropped on failure. -/
def applyEnv (env : EnvState) (d : RawConfig) : RawConfig :=
  { api_key := applyEnvStr d.api_key env.api_key,
    api_secret := applyEnvStr d.api_secret env.api_secret,
    api_url := applyEnvStr d.api_url env.api_url,
    timeout := applyEnvInt d.timeout env.timeout,
    max_retries := applyEnvInt d.max_retries env.max_retries,
    output_format := applyEnvStr d.output_format env.output_format }

/-- The external state `ConfigManager.load` reads: the selected YAML
config file, the JSON config file, and the environment variables. -/
structure LoadInputs where
  yaml : FileState YamlData
  jsonFile : FileState RawConfig
  env : EnvState
deriving DecidableEq, Repr

/-- The `config_data` dict at the end of `ConfigManager.load`, with the
warnings printed while building it. -/
def loadConfigData (inp : LoadInputs) : RawConfig × List String :=
  let fd := loadFileData inp.yaml inp.jsonFile
  (applyEnv inp.env fd.1, fd.2)

/-- Embedding of `ConfigManager.load`: build `config_data` from files and environment,
then validate it into a `DomainToolsConfig`; a `ValidationError` is
re-raised as `ValueError` (the `.error` case). -/
def load (inp : LoadInputs) : Except String DomainToolsConfig :=
  validateConfig (loadConfigData inp).1

/-- The mutable state of a `ConfigManager`: its `self.config` slot. -/
structure ManagerState where
  config : Option DomainToolsConfig := none
deriving DecidableEq, Repr

/-- Embedding of `ConfigManager.load` with the manager state threaded through: on
success `self.config` is set to the fresh result; on a validation error
the assignment never runs and the state is unchanged. -/
def loadM (inp : LoadInputs) (st : ManagerState) :
    Except String DomainToolsConfig × ManagerState :=
  match validateConfig (loadConfigData inp).1 with
  | .ok c => (.ok c, { config := some c })
  | .error e => (.error e, st)

/-- Embedding of `ConfigManager.is_configured`: `load` and report whether both
credential fields are truthy (a Python string / `SecretStr` is truthy
exactly when nonempty); a `ValueError`/`ValidationError` from `load`
yields `false`. -/
def is_configured (inp : LoadInputs) : Bool :=
  match load inp with
  | .ok c => c.api_key != "" && c.api_secret != ""
  | .error _ => false

/-- The dict `self.config.model_dump()` with the `SecretStr` replaced by its
`get_secret_value()`, as `ConfigManager.save` builds it before writing:
every field is present, the secret in plain form, `api_url` as `None`
when unset. -/
def modelDumpPlain (c : DomainToolsConfig) : RawConfig :=
  { api_key := some (.str c.api_key),
    api_secret := some (.str c.api_secret),
    api_url := some (match c.api_url with | some u => .str u | none => .pnone),
    timeout := some (.int c.timeout),
    max_retries := some (.int c.max_retries),
    output_format := some (.str c.output_format) }

/-- Embedding of `ConfigManager.save`: the JSON object written to the config file and
the mode passed to `chmod` (0o600). -/
def save (c : DomainToolsConfig) : RawConfig × Nat :=
  (modelDumpPlain c, 0o600)

/-- The `**kwargs` of `ConfigManager.update`, restricted to the six known
configuration keys (pydantic ignores unknown keys): `none` means the key
is not named in the call. -/
structure UpdateKwargs where
  api_key : Option PyVal := none
  api_secret : Option PyVal := none
  api_url : Option PyVal := none
  timeout : Option PyVal := none
  max_retries : Option PyVal := none
  output_format : Option PyVal := none
deriving DecidableEq, Repr

/-- The merge `config_dict.update(kwargs)` applied to the dump of the current
config: keys named in the call overwrite, the rest keep their dumped
values. -/
def updatedDict (c : DomainToolsConfig) (kw : UpdateKwargs) : RawConfig :=
  let d := modelDumpPlain c
  { api_key := (kw.api_key.map some).getD d.api_key,
    api_secret := (kw.api_secret.map some).getD d.api_secret,
    api_url := (kw.api_url.map some).getD d.api_url,
    timeout := (kw.timeout.map some).getD d.timeout,
    max_retries := (kw.max_retries.map some).getD d.max_retries,
    output_format := (kw.output_format.map some).getD d.output_format }

/-- Embedding of `ConfigManager.update(**kwargs)` on a loaded configuration: dump,
merge the kwargs, re-validate. -/
def update (c : DomainToolsConfig) (kw : UpdateKwargs) :
    Except String DomainToolsConfig :=
  validateConfig (updatedDict c kw)

/-- Embedding of `ConfigManager.update` with the `self.config` slot threaded: the slot
is reassigned only when validation succeeds; a `ValidationError` leaves
the previously loaded configuration in place. -/
def updateM (c : DomainToolsConfig) (kw : UpdateKwargs) :
    DomainToolsConfig × Except String DomainToolsConfig :=
  match update c kw with
  | .ok c2 => (c2, .ok c2)
  | .error e => (c, .error e)

/-- An exception arriving at `DomainToolsClient._handle_exception`,
classified the way its `isinstance` chain observes it: the two specific
vendor subclasses are tested first, so `.service` stands for a
`ServiceException` that is neither of them, and `.other` for any
exception outside the vendor hierarchy. -/
inductive VendorExn where
  | notAuthorized (msg : String)
  | badRequest (msg : String)
  | service (msg : String)
  | other (msg : String)
deriving DecidableEq, Repr

/-- The exception taxonomy of `api/exceptions.py`, as raised by
`_handle_exception`: `AuthenticationError`, `InvalidRequestError`,
`RateLimitError`, and the base `DomainToolsError` for everything else. -/
inductive DTError where
  | authenticationError (msg : String)
  | invalidRequestError (msg : String)
  | rateLimitError (msg : String)
  | domainToolsError (msg : String)
deriving DecidableEq, Repr

/-- Whether `needle` matches at the head of `hay`. -/
def matchesHere : List Char → List Char → Bool
  | [], _ => true
  | _ :: _, [] => false
  | a :: as, b :: bs => a == b && matchesHere as bs

/-- Python's `in` on strings: whether `needle` occurs contiguously in
`hay`. -/
def hasSub (needle : List Char) : List Char → Bool
  | [] => matchesHere needle []
  | c :: rest => matchesHere needle (c :: rest) || hasSub needle rest

/-- Python `str.lower()` on one character (ASCII case mapping; the
rate-limit marker is pure ASCII). -/
def pyCharLower (c : Char) : Char :=
  if 65 ≤ c.toNat && c.toNat ≤ 90 then Char.ofNat (c.toNat + 32) else c

/-- The test `"rate limit" in str(e).lower()`: case-insensitive substring test for
the rate-limit marker. -/
def containsRateLimit (m : String) : Bool :=
  hasSub "rate limit".toList (m.toList.map pyCharLower)

/-- Embedding of `DomainToolsClient._handle_exception` (client.py lines 32-43):
`NotAuthorizedException` becomes `AuthenticationError`,
`BadRequestException` becomes `InvalidRequestError`, a `ServiceException`
whose lowercased message contains `"rate limit"` becomes
`RateLimitError` and otherwise `DomainToolsError`, and any other
exception becomes `DomainToolsError` with an `"Unexpected error: "`
marker. -/
def handleException : VendorExn → DTError
  | .notAuthorized m => .authenticationError m
  | .badRequest m => .invalidRequestError m
  | .service m =>
    if containsRateLimit m then .rateLimitError m else .domainToolsError m
  | .other m => .domainToolsError ("Unexpected error: " ++ m)

/-- One Gateway Facade operation, e.g. `domain_profile`: the underlying
vendor call either returns data or raises, and the surrounding
`try`/`except Exception` funnels every raised exception through
`_handle_exception`. -/
def runOp {α : Type} (op : Except VendorExn α) : Except DTError α :=
  match op with
  | .ok v => .ok v
  | .error e => .error (handleException e)

/-- One `async_domain_profile` task run to completion for one domain, given the
outcome function of the underlying synchronous call: the settled result
of the task, either the payload or the exception it raised. -/
def asyncOutcome {α β : Type} (f : α → Except DTError β) (x : α) :
    Except DTError β :=
  f x

/-- Model of `asyncio.gather(*tasks, return_exceptions=True)`, modelled with an
explicit completion schedule: result slots start unfilled, and each step
of the schedule settles the task with that input index, writing its
outcome into its own slot.  `gather` returns once every slot is filled,
in input order. -/
def gatherStep {α : Type} (tasks : List α) (slots : List (Option α))
    (i : Nat) : List (Option α) :=
  match tasks[i]? with
  | some t => slots.set i (some t)
  | none => slots

/-- Run a completion schedule (a list of input indices, in completion
order) over the tasks, starting from all-unfilled slots. -/
def gatherWithOrder {α : Type} (tasks : List α) (order : List Nat) :
    List (Option α) :=
  order.foldl (gatherStep tasks) (List.replicate tasks.length none)

/-- Embedding of `DomainToolsClient.batch_domain_profiles` (client.py lines 293-305):
one `async_domain_profile` task per domain, gathered with
`return_exceptions=True`, so the result list pairs each input position
with that task's own settled outcome. -/
def batch_domain_profiles {α β : Type} (f : α → Except DTError β)
    (domains : List α) : List (Except DTError β) :=
  domains.map (asyncOutcome f)

/-- A JSON-like Python value as fed to `OutputFormatter`: scalars,
lists, and dicts (modelled as ordered key/value lists, matching Python's
insertion-ordered dict iteration). -/
inductive JValue where
  | str (s : String)
  | int (n : Int)
  | bool (b : Bool)
  | null
  | arr (items : List JValue)
  | obj (fields : List (String × JValue))

/-- A node of the rendered rich `Tree`: `tree.add(text)` adds a leaf,
`branch = tree.add(label)` followed by recursion adds a branch with its
own children. -/
inductive TreeNode where
  | leaf (text : String)
  | branch (label : String) (children : List TreeNode)

/-- Python `str` of a bool (`True`/`False`). -/
def pyBoolStr (b : Bool) : String :=
  if b then "True" else "False"

/-- Embedding of `OutputFormatter._format_value` (output.py lines 111-131).  The final
`str(value)` branch is reached from `_build_tree` only for empty
containers, where Python `str` gives `[]` and `\x7b\x7d`. -/
def formatValue : JValue → String
  | .null => "[dim]None[/dim]"
  | .bool b => "[cyan]" ++ pyBoolStr b ++ "[/cyan]"
  | .int n => "[magenta]" ++ toString n ++ "[/magenta]"
  | .str s => if s.length > 100 then s.take 100 ++ "[dim]...[/dim]" else s
  | .arr _ => "[]"
  | .obj _ => "\x7b\x7d"

/-- The test `isinstance(value, (dict, list))`. -/
def isContainer : JValue → Bool
  | .arr _ => true
  | .obj _ => true
  | _ => false

/-- Python truthiness of a value (`and value` in `_build_tree`). -/
def isTruthy : JValue → Bool
  | .str s => s != ""
  | .int n => n != 0
  | .bool b => b
  | .null => false
  | .arr items => !items.isEmpty
  | .obj fields => !fields.isEmpty

/-- The placeholder leaf emitted when the depth cap is reached. -/
def depthMarker : String := "[dim]...[/dim]"

/-- The count-remaining leaf emitted after the first 10 items of a long
list: `f"[dim]... and {len(data) - 10} more items[/dim]"`. -/
def moreItemsText (n : Nat) : String :=
  "[dim]... and " ++ toString n ++ " more items[/dim]"

/-- Label of a branch for a dict key. -/
def objBranchLabel (k : String) : String :=
  "[bold yellow]" ++ k ++ "[/bold yellow]"

/-- Leaf text for a dict key with a non-container (or empty) value. -/
def objLeafText (k : String) (v : JValue) : String :=
  "[green]" ++ k ++ "[/green]: " ++ formatValue v

/-- Label of a branch for a list index. -/
def arrBranchLabel (i : Nat) : String :=
  "[bold blue][" ++ toString i ++ "][/bold blue]"

/-- Leaf text for a non-container list item. -/
def arrLeafText (i : Nat) (v : JValue) : String :=
  "[" ++ toString i ++ "]: " ++ formatValue v

/-- The `sizeOf` of a list prefix is at most `sizeOf` of the list. -/
theorem sizeOf_take_le {α : Type} [SizeOf α] (n : Nat) (l : List α) :
    sizeOf (l.take n) ≤ sizeOf l := by
  induction l generalizing n with
  | nil => simp
  | cons a l ih =>
    cases n with
    | zero => simp [List.take]; omega
    | succ n =>
      simp only [List.take, List.cons.sizeOf_spec]
      have := ih n
      omega

mutual

/-- Embedding of `OutputFormatter._build_tree` (output.py lines 79-109), returning the
list of nodes added to `tree`: at or beyond the depth cap a single
placeholder leaf; a dict contributes one node per key (a branch with a
recursive build at `current_depth + 1` for truthy containers, a leaf
otherwise); a list contributes one node per item of `data[:10]` plus a
count-remaining leaf when more than 10 items exist; scalars add
nothing. -/
def buildTree (data : JValue) (maxDepth currentDepth : Nat) : List TreeNode :=
  if currentDepth ≥ maxDepth then [TreeNode.leaf depthMarker]
  else
    match data with
    | .obj fields => buildTreeFields fields maxDepth currentDepth
    | .arr items =>
      buildTreeItems (items.take 10) 0 maxDepth currentDepth ++
        (if items.length > 10 then [TreeNode.leaf (moreItemsText (items.length - 10))]
         else [])
    | _ => []
termination_by sizeOf data
decreasing_by
  · simp only [JValue.obj.sizeOf_spec]; omega
  · have := sizeOf_take_le (α := JValue) 10 items
    simp only [JValue.arr.sizeOf_spec]
    omega

/-- The `for key, value in data.items()` loop of `_build_tree`. -/
def buildTreeFields (fields : List (String × JValue)) (maxDepth currentDepth : Nat) :
    List TreeNode :=
  match fields with
  | [] => []
  | (k, v) :: rest =>
    (if isContainer v && isTruthy v then
      TreeNode.branch (objBranchLabel k) (buildTree v maxDepth (currentDepth + 1))
     else
      TreeNode.leaf (objLeafText k v)) :: buildTreeFields rest maxDepth currentDepth
termination_by sizeOf fields
decreasing_by
  · simp only [List.cons.sizeOf_spec, Prod.mk.sizeOf_spec]; omega
  · simp only [List.cons.sizeOf_spec]; omega

/-- The `for i, item in enumerate(data[:10])` loop of `_build_tree`,
with `i` the running index. -/
def buildTreeItems (items : List JValue) (i : Nat) (maxDepth currentDepth : Nat) :
    List TreeNode :=
  match items with
  | [] => []
  | item :: rest =>
    (if isContainer item then
      TreeNode.branch (arrBranchLabel i) (buildTree item maxDepth (currentDepth + 1))
     else
      TreeNode.leaf (arrLeafText i item)) :: buildTreeItems rest (i + 1) maxDepth currentDepth
termination_by sizeOf items
decreasing_by
  · simp only [List.cons.sizeOf_spec]; omega
  · simp only [List.cons.sizeOf_spec]; omega

end

/-- Embedding of `OutputFormatter.format_tree`: build the tree below the title node
with `max_depth = 10` starting at depth 0. -/
def format_tree (data : JValue) : List TreeNode :=
  buildTree data 10 0

/-! ## Helper lemmas -/

theorem vStr_ok_iff (f : Option PyVal) (s : String) :
    vStr f = .ok s ↔ f = some (.str s) := by
  unfold vStr
  cases f with
  | none => simp
  | some v => cases v <;> simp

theorem vUrl_ok_iff (f : Option PyVal) (u : Option String) :
    vUrl f = .ok u ↔
      (f = none ∧ u = none) ∨ (f = some .pnone ∧ u = none) ∨
        (∃ s, f = some (.str s) ∧ u = some s) := by
  unfold vUrl
  cases f with
  | none => simp [eq_comm]
  | some v => cases v <;> simp [eq_comm]

theorem vIntD_ok_iff (dflt : Int) (f : Option PyVal) (n : Int) :
    vIntD dflt f = .ok n ↔
      (f = none ∧ n = dflt) ∨ f = some (.int n) ∨
        (∃ s, f = some (.str s) ∧ pyInt? s = some n) := by
  unfold vIntD
  cases f with
  | none => simp [eq_comm]
  | some v =>
    cases v with
    | str s => cases h : pyInt? s <;> simp [h, eq_comm]
    | int m => simp
    | pnone => simp

theorem vStrD_ok_iff (dflt : String) (f : Option PyVal) (s : String) :
    vStrD dflt f = .ok s ↔
      (f = none ∧ s = dflt) ∨ f = some (.str s) := by
  unfold vStrD
  cases f with
  | none => simp [eq_comm]
  | some v => cases v <;> simp

theorem applyEnvInt_dropped (cur : Option PyVal) (s : String)
    (hp : pyInt? s = none) : applyEnvInt cur (some s) = cur := by
  simp only [applyEnvInt, hp]
  split <;> rfl

theorem applyEnvInt_unset (cur : Option PyVal) : applyEnvInt cur none = cur :=
  rfl

theorem validateConfig_ok_iff (d : RawConfig) (c : DomainToolsConfig) :
    validateConfig d = .ok c ↔
      vStr d.api_key = .ok c.api_key ∧ vStr d.api_secret = .ok c.api_secret ∧
        vUrl d.api_url = .ok c.api_url ∧ vIntD 30 d.timeout = .ok c.timeout ∧
        vIntD 3 d.max_retries = .ok c.max_retries ∧
        vStrD "json" d.output_format = .ok c.output_format := by
  unfold validateConfig
  cases h1 : vStr d.api_key <;> cases h2 : vStr d.api_secret <;>
    cases h3 : vUrl d.api_url <;> cases h4 : vIntD 30 d.timeout <;>
    cases h5 : vIntD 3 d.max_retries <;>
    cases h6 : vStrD "json" d.output_format <;>
    simp [DomainToolsConfig.ext_iff, eq_comm]

/-! ## Claim theorems -/

/-- C6: `ConfigManager.load` is idempotent: for a fixed state of the
environment and config files, a second `load` returns the same
configuration (and manager state) as the first, whether the first
succeeded or failed. -/
theorem load_idempotent (inp : LoadInputs) (st : ManagerState) :
    loadM inp (loadM inp st).2 = loadM inp st := by
  unfold loadM
  cases h : validateConfig (loadConfigData inp).1 <;> simp [h]

/-- C4: `ConfigManager.is_configured` returns `true` iff `load` resolves
a configuration whose `api_key` and `api_secret` are both nonempty
strings; when either credential is missing or empty, or validation
fails, it returns `false`. -/
theorem is_configured_iff (inp : LoadInputs) :
    is_configured inp = true ↔
      ∃ c, load inp = .ok c ∧ c.api_key ≠ "" ∧ c.api_secret ≠ "" := by
  unfold is_configured
  cases h : load inp <;> simp [h]

/-- C5: saving a configuration and loading it back — with no YAML config
file and no environment variables set — returns the configuration
unchanged in every field, with the secret recoverable in plain form and
the file chmodded to `0o600`. -/
theorem save_load_roundtrip (c : DomainToolsConfig) :
    load { yaml := .absent, jsonFile := .content (save c).1, env := {} } = .ok c ∧
      (save c).1.api_secret = some (.str c.api_secret) ∧ (save c).2 = 0o600 := by
  refine ⟨?_, rfl, rfl⟩
  rw [load, validateConfig_ok_iff]
  refine ⟨?_, ?_, ?_, ?_, ?_, ?_⟩ <;>
    simp [loadConfigData, loadFileData, applyEnv, applyEnvStr, applyEnvInt,
      save, modelDumpPlain, vStr_ok_iff, vUrl_ok_iff, vIntD_ok_iff, vStrD_ok_iff]
  cases c.api_url <;> simp

/-- Field-by-field characterisation of a successful `load`, shared by
the priority and numeric-environment claims. -/
theorem load_resolved_fields (inp : LoadInputs) (c : DomainToolsConfig)
    (h : load inp = .ok c) :
    (∀ k, inp.env.api_key = some k → k ≠ "" → c.api_key = k) ∧
    (∀ k, inp.env.api_secret = some k → k ≠ "" → c.api_secret = k) ∧
    (∀ k, inp.env.api_url = some k → k ≠ "" → c.api_url = some k) ∧
    (∀ s n, inp.env.timeout = some s → s ≠ "" → pyInt? s = some n →
      c.timeout = n) ∧
    (∀ s n, inp.env.max_retries = some s → s ≠ "" → pyInt? s = some n →
      c.max_retries = n) ∧
    (∀ k, inp.env.output_format = some k → k ≠ "" → c.output_format = k) ∧
    (inp.env.timeout = none →
      (loadFileData inp.yaml inp.jsonFile).1.timeout = none → c.timeout = 30) ∧
    (inp.env.max_retries = none →
      (loadFileData inp.yaml inp.jsonFile).1.max_retries = none →
      c.max_retries = 3) ∧
    (∀ v, inp.env.api_key = none →
      (loadFileData inp.yaml inp.jsonFile).1.api_key = some (.str v) →
      c.api_key = v) := by
  rw [load, validateConfig_ok_iff] at h
  obtain ⟨h1, h2, h3, h4, h5, h6⟩ := h
  simp only [loadConfigData, applyEnv] at h1 h2 h3 h4 h5 h6
  refine ⟨?_, ?_, ?_, ?_, ?_, ?_, ?_, ?_, ?_⟩
  · intro k hk hne
    rw [hk] at h1
    simp only [applyEnvStr, if_pos hne, vStr_ok_iff, Option.some.injEq,
      PyVal.str.injEq] at h1
    exact h1.symm
  · intro k hk hne
    rw [hk] at h2
    simp only [applyEnvStr, if_pos hne, vStr_ok_iff, Option.some.injEq,
      PyVal.str.injEq] at h2
    exact h2.symm
  · intro k hk hne
    rw [hk] at h3
    simp only [applyEnvStr, if_pos hne, vUrl_ok_iff] at h3
    simp only [Option.some.injEq, PyVal.str.injEq] at h3
    rcases h3 with ⟨h, _⟩ | ⟨h, _⟩ | ⟨s, hs, hu⟩
    · exact absurd h (by simp)
    · exact absurd h (by simp)
    · rw [hu, hs.symm]
  · intro s n hs hne hp
    rw [hs] at h4
    simp only [applyEnvInt, if_pos hne, hp] at h4
    simp only [vIntD_ok_iff, Option.some.injEq, PyVal.int.injEq] at h4
    rcases h4 with ⟨h, _⟩ | h | ⟨t, ht, _⟩
    · exact absurd h (by simp)
    · exact h.symm
    · exact absurd ht (by simp)
  · intro s n hs hne hp
    rw [hs] at h5
    simp only [applyEnvInt, if_pos hne, hp] at h5
    simp only [vIntD_ok_iff, Option.some.injEq, PyVal.int.injEq] at h5
    rcases h5 with ⟨h, _⟩ | h | ⟨t, ht, _⟩
    · exact absurd h (by simp)
    · exact h.symm
    · exact absurd ht (by simp)
  · intro k hk hne
    rw [hk] at h6
    simp only [applyEnvStr, if_pos hne, vStrD_ok_iff] at h6
    rcases h6 with ⟨h, _⟩ | h
    · exact absurd h (by simp)
    · simp only [Option.some.injEq, PyVal.str.injEq] at h
      exact h.symm
  · intro he hf
    rw [he, hf] at h4
    simp only [applyEnvInt, vIntD_ok_iff] at h4
    rcases h4 with ⟨_, h⟩ | h | ⟨t, ht, _⟩
    · exact h
    · exact absurd h (by simp)
    · exact absurd ht (by simp)
  · intro he hf
    rw [he, hf] at h5
    simp only [applyEnvInt, vIntD_ok_iff] at h5
    rcases h5 with ⟨_, h⟩ | h | ⟨t, ht, _⟩
    · exact h
    · exact absurd h (by simp)
    · exact absurd ht (by simp)
  · intro v he hf
    rw [he, hf] at h1
    simp only [applyEnvStr, vStr_ok_iff, Option.some.injEq, PyVal.str.injEq] at h1
    exact h1.symm

/-- C1: for every field, the resolved value comes from the
highest-priority source that set it.  A nonempty environment variable
(parseable, for the numeric fields) always determines the resolved
field regardless of the files; with the environment variable unset, a
string the file phase put in `config_data` determines it; and when the
numeric fields are set by neither source they keep the defaults
`timeout = 30` and `max_retries = 3`. -/
theorem config_priority (inp : LoadInputs) (c : DomainToolsConfig)
    (h : load inp = .ok c) :
    (∀ k, inp.env.api_key = some k → k ≠ "" → c.api_key = k) ∧
    (∀ k, inp.env.api_secret = some k → k ≠ "" → c.api_secret = k) ∧
    (∀ k, inp.env.api_url = some k → k ≠ "" → c.api_url = some k) ∧
    (∀ s n, inp.env.timeout = some s → s ≠ "" → pyInt? s = some n →
      c.timeout = n) ∧
    (∀ s n, inp.env.max_retries = some s → s ≠ "" → pyInt? s = some n →
      c.max_retries = n) ∧
    (∀ k, inp.env.output_format = some k → k ≠ "" → c.output_format = k) ∧
    (inp.env.timeout = none →
      (loadFileData inp.yaml inp.jsonFile).1.timeout = none → c.timeout = 30) ∧
    (inp.env.max_retries = none →
      (loadFileData inp.yaml inp.jsonFile).1.max_retries = none →
      c.max_retries = 3) ∧
    (∀ v, inp.env.api_key = none →
      (loadFileData inp.yaml inp.jsonFile).1.api_key = some (.str v) →
      c.api_key = v) :=
  load_resolved_fields inp c h

/-- The spec's C1 example input: `DOMAINTOOLS_API_KEY=env_key` set, no
YAML file, and a JSON config file supplying `api_key = "file_key"` and
an `api_secret`. -/
def inpC1 : LoadInputs :=
  { yaml := .absent,
    jsonFile := .content
      { api_key := some (.str "file_key"), api_secret := some (.str "s") },
    env := { api_key := some "env_key" } }

/-- The configuration `inpC1` resolves to. -/
def cfgC1 : DomainToolsConfig := { api_key := "env_key", api_secret := "s" }

/-- Witness for C1: on the spec's own example the environment wins over
the file for `api_key` and the untouched numeric fields keep their
defaults. -/
theorem config_priority_witness :
    load inpC1 = .ok cfgC1 ∧ cfgC1.api_key = "env_key" ∧
      cfgC1.timeout = 30 ∧ cfgC1.max_retries = 3 := by
  have hload : load inpC1 = .ok cfgC1 := by rfl
  have hp := config_priority inpC1 cfgC1 hload
  exact ⟨hload, hp.1 "env_key" rfl (by decide),
    hp.2.2.2.2.2.2.1 rfl rfl, hp.2.2.2.2.2.2.2.1 rfl rfl⟩

/-- C9: a `DOMAINTOOLS_TIMEOUT`/`DOMAINTOOLS_MAX_RETRIES` value that
`int()` rejects is silently dropped — `load` behaves exactly as if the
variable were unset, keeping the file/default value — while a parseable
value overrides the resolved field. -/
theorem env_numeric (inp : LoadInputs) (s : String) :
    (inp.env.timeout = some s → pyInt? s = none →
      load inp = load { inp with env := { inp.env with timeout := none } }) ∧
    (inp.env.max_retries = some s → pyInt? s = none →
      load inp =
        load { inp with env := { inp.env with max_retries := none } }) ∧
    (∀ n c, inp.env.timeout = some s → s ≠ "" → pyInt? s = some n →
      load inp = .ok c → c.timeout = n) ∧
    (∀ n c, inp.env.max_retries = some s → s ≠ "" → pyInt? s = some n →
      load inp = .ok c → c.max_retries = n) := by
  refine ⟨?_, ?_, ?_, ?_⟩
  · intro hs hp
    simp only [load, loadConfigData, applyEnv, hs,
      applyEnvInt_dropped _ s hp, applyEnvInt_unset]
  · intro hs hp
    simp only [load, loadConfigData, applyEnv, hs,
      applyEnvInt_dropped _ s hp, applyEnvInt_unset]
  · intro n c hs hne hp h
    exact (load_resolved_fields inp c h).2.2.2.1 s n hs hne hp
  · intro n c hs hne hp h
    exact (load_resolved_fields inp c h).2.2.2.2.1 s n hs hne hp

/-- C9 example input: `DOMAINTOOLS_TIMEOUT=abc` with a JSON config file
supplying `timeout = 45`. -/
def inpC9 : LoadInputs :=
  { yaml := .absent,
    jsonFile := .content
      { api_key := some (.str "k"), api_secret := some (.str "s"),
        timeout := some (.int 45) },
    env := { timeout := some "abc" } }

/-- Input `inpC9` with the unparseable `DOMAINTOOLS_TIMEOUT` removed. -/
def inpC9unset : LoadInputs :=
  { inpC9 with env := { inpC9.env with timeout := none } }

/-- Witness for C9: `DOMAINTOOLS_TIMEOUT=abc` fails `int()` and is
dropped — the load behaves as with the variable unset and the file's
`timeout = 45` survives — while `DOMAINTOOLS_TIMEOUT=60` overrides it. -/
theorem env_numeric_witness :
    pyInt? "abc" = none ∧ load inpC9 = load inpC9unset ∧
      load inpC9 =
        .ok { api_key := "k", api_secret := "s", timeout := 45 } ∧
      load { inpC9 with env := { inpC9.env with timeout := some "60" } } =
        .ok { api_key := "k", api_secret := "s", timeout := 60 } := by
  refine ⟨by decide, (env_numeric inpC9 "abc").1 rfl (by decide), by rfl, by rfl⟩

/-- C10: `ConfigManager.update(**kwargs)` changes only the fields named
in the kwargs — every other field of a successfully returned
configuration equals its previous value — and the merged dict is
re-validated, a validation failure raising and leaving `self.config` at
the previous, fully-consistent configuration. -/
theorem update_frame (c : DomainToolsConfig) (kw : UpdateKwargs) :
    (∀ c2, update c kw = .ok c2 →
      (kw.api_key = none → c2.api_key = c.api_key) ∧
      (kw.api_secret = none → c2.api_secret = c.api_secret) ∧
      (kw.api_url = none → c2.api_url = c.api_url) ∧
      (kw.timeout = none → c2.timeout = c.timeout) ∧
      (kw.max_retries = none → c2.max_retries = c.max_retries) ∧
      (kw.output_format = none → c2.output_format = c.output_format)) ∧
    (∀ e, update c kw = .error e → updateM c kw = (c, .error e)) := by
  constructor
  · intro c2 h
    rw [update, validateConfig_ok_iff] at h
    obtain ⟨h1, h2, h3, h4, h5, h6⟩ := h
    refine ⟨?_, ?_, ?_, ?_, ?_, ?_⟩
    · intro hk
      rw [show (updatedDict c kw).api_key = some (.str c.api_key) by
        simp [updatedDict, modelDumpPlain, hk]] at h1
      simp only [vStr_ok_iff, Option.some.injEq, PyVal.str.injEq] at h1
      exact h1.symm
    · intro hk
      rw [show (updatedDict c kw).api_secret = some (.str c.api_secret) by
        simp [updatedDict, modelDumpPlain, hk]] at h2
      simp only [vStr_ok_iff, Option.some.injEq, PyVal.str.injEq] at h2
      exact h2.symm
    · intro hk
      rw [show (updatedDict c kw).api_url =
          some (match c.api_url with | some u => .str u | none => .pnone) by
        simp [updatedDict, modelDumpPlain, hk]] at h3
      cases hu : c.api_url with
      | none =>
        rw [hu] at h3
        simp only [vUrl_ok_iff] at h3
        rcases h3 with ⟨h, _⟩ | ⟨_, h⟩ | ⟨t, ht, _⟩
        · exact absurd h (by simp)
        · exact h
        · exact absurd ht (by simp)
      | some u =>
        rw [hu] at h3
        simp only [vUrl_ok_iff] at h3
        rcases h3 with ⟨h, _⟩ | ⟨h, _⟩ | ⟨t, ht, hu2⟩
        · exact absurd h (by simp)
        · exact absurd h (by simp)
        · simp only [Option.some.injEq, PyVal.str.injEq] at ht
          rw [hu2, ht]
    · intro hk
      rw [show (updatedDict c kw).timeout = some (.int c.timeout) by
        simp [updatedDict, modelDumpPlain, hk]] at h4
      simp only [vIntD_ok_iff] at h4
      rcases h4 with ⟨h, _⟩ | h | ⟨t, ht, _⟩
      · exact absurd h (by simp)
      · simp only [Option.some.injEq, PyVal.int.injEq] at h
        exact h.symm
      · exact absurd ht (by simp)
    · intro hk
      rw [show (updatedDict c kw).max_retries = some (.int c.max_retries) by
        simp [updatedDict, modelDumpPlain, hk]] at h5
      simp only [vIntD_ok_iff] at h5
      rcases h5 with ⟨h, _⟩ | h | ⟨t, ht, _⟩
      · exact absurd h (by simp)
      · simp only [Option.some.injEq, PyVal.int.injEq] at h
        exact h.symm
      · exact absurd ht (by simp)
    · intro hk
      rw [show (updatedDict c kw).output_format = some (.str c.output_format) by
        simp [updatedDict, modelDumpPlain, hk]] at h6
      simp only [vStrD_ok_iff] at h6
      rcases h6 with ⟨h, _⟩ | h
      · exact absurd h (by simp)
      · simp only [Option.some.injEq, PyVal.str.injEq] at h
        exact h.symm
  · intro e h
    unfold updateM
    rw [h]

/-- C10 example configuration. -/
def cfgC10 : DomainToolsConfig := { api_key := "k", api_secret := "s" }

/-- C10 example kwargs: a valid `timeout` update and an invalid
`api_key=None` update. -/
def kwTimeout : UpdateKwargs := { timeout := some (.int 60) }

/-- The invalid update used by the C10 witness. -/
def kwBadKey : UpdateKwargs := { api_key := some .pnone }

/-- Witness for C10: updating only `timeout` keeps `api_key` (and, by
evaluation, every other field); the invalid `api_key=None` update fails
validation and leaves the stored configuration untouched. -/
theorem update_frame_witness :
    update cfgC10 kwTimeout = .ok { api_key := "k", api_secret := "s", timeout := 60 } ∧
      ({ api_key := "k", api_secret := "s", timeout := 60 } : DomainToolsConfig).api_key =
        cfgC10.api_key ∧
      update cfgC10 kwBadKey = .error "Invalid configuration" ∧
      updateM cfgC10 kwBadKey = (cfgC10, .error "Invalid configuration") := by
  have hok : update cfgC10 kwTimeout =
      .ok { api_key := "k", api_secret := "s", timeout := 60 } := by rfl
  have herr : update cfgC10 kwBadKey = .error "Invalid configuration" := by rfl
  exact ⟨hok, ((update_frame cfgC10 kwTimeout).1 _ hok).1 rfl, herr,
    (update_frame cfgC10 kwBadKey).2 _ herr⟩

/-- C8 counterexample input: no YAML file, a JSON config file that fails
to parse, and credentials in the environment. -/
def inpC8 : LoadInputs :=
  { yaml := .absent, jsonFile := .parseError,
    env := { api_key := some "k", api_secret := some "s" } }

/-- C8 counterexample: a parse failure on the selected JSON config file
is NOT reported as a warning — `load` prints nothing (the
`json.JSONDecodeError` handler is a bare `pass`), although resolution
does continue and succeeds from the environment. -/
theorem json_parse_failure_silent :
    inpC8.jsonFile = .parseError ∧ (loadConfigData inpC8).2 = [] ∧
      load inpC8 = .ok { api_key := "k", api_secret := "s" } :=
  ⟨rfl, rfl, rfl⟩

/-- C8 amended: a YAML parse failure is reported with a warning and a
JSON parse failure silently ignored; neither is fatal — in both cases
`load` resolves exactly as if no file contributed, from defaults and the
environment. -/
theorem parse_failure_nonfatal (env : EnvState) (jsonFile : FileState RawConfig) :
    loadConfigData { yaml := .parseError, jsonFile := jsonFile, env := env } =
        (applyEnv env {}, [yamlWarning]) ∧
      loadConfigData { yaml := .absent, jsonFile := .parseError, env := env } =
        (applyEnv env {}, []) ∧
      load { yaml := .parseError, jsonFile := jsonFile, env := env } =
        validateConfig (applyEnv env {}) ∧
      load { yaml := .absent, jsonFile := .parseError, env := env } =
        validateConfig (applyEnv env {}) :=
  ⟨rfl, rfl, rfl, rfl⟩

/-- C3: error translation is total over the vendor exception space.
`NotAuthorizedException` maps to the authentication failure,
`BadRequestException` to the malformed-request failure, a
`ServiceException` carrying the case-insensitive `"rate limit"` marker
to the rate-limit failure and otherwise to the generic failure, any
unexpected exception to the generic failure with the
`"Unexpected error"` marker — and every error a Gateway Facade
operation surfaces is `handleException` of the raised exception, so no
vendor exception escapes untranslated. -/
theorem error_translation :
    (∀ m, handleException (.notAuthorized m) = .authenticationError m) ∧
    (∀ m, containsRateLimit m = true →
      handleException (.service m) = .rateLimitError m) ∧
    (∀ m, containsRateLimit m = false →
      handleException (.service m) = .domainToolsError m) ∧
    (∀ m, handleException (.badRequest m) = .invalidRequestError m) ∧
    (∀ m, handleException (.other m) =
      .domainToolsError ("Unexpected error: " ++ m)) ∧
    (∀ (α : Type) (op : Except VendorExn α) (d : DTError),
      runOp op = .error d → ∃ e, op = .error e ∧ d = handleException e) ∧
    containsRateLimit "Rate Limit exceeded" = true := by
  refine ⟨fun m => rfl, ?_, ?_, fun m => rfl, fun m => rfl, ?_, by decide⟩
  · intro m h
    simp [handleException, h]
  · intro m h
    simp [handleException, h]
  · intro α op d h
    cases op with
    | ok v => exact absurd h (by simp [runOp])
    | error e =>
      refine ⟨e, rfl, ?_⟩
      simp only [runOp, Except.error.injEq] at h
      exact h.symm

/-- Witness for C3: the rate-limit marker is matched
case-insensitively, and an error surfacing from an operation is the
translated exception. -/
theorem error_translation_witness :
    handleException (.service "API Rate Limit exceeded") =
        .rateLimitError "API Rate Limit exceeded" ∧
      (∃ e, (.error (VendorExn.other "boom") : Except VendorExn String) = .error e ∧
        DTError.domainToolsError "Unexpected error: boom" = handleException e) := by
  refine ⟨error_translation.2.1 _ (by decide), ?_⟩
  exact error_translation.2.2.2.2.2.1 String (.error (.other "boom"))
    (.domainToolsError "Unexpected error: boom") rfl

/-- Length is preserved by one completion step. -/
theorem gatherStep_length {α : Type} (tasks : List α)
    (slots : List (Option α)) (i : Nat) :
    (gatherStep tasks slots i).length = slots.length := by
  unfold gatherStep
  cases h : tasks[i]? <;> simp

/-- Length is preserved by a whole completion schedule. -/
theorem gatherFold_length {α : Type} (tasks : List α) (order : List Nat)
    (slots : List (Option α)) :
    (order.foldl (gatherStep tasks) slots).length = slots.length := by
  induction order generalizing slots with
  | nil => rfl
  | cons a rest ih => rw [List.foldl_cons, ih, gatherStep_length]

/-- After running a completion schedule, a slot holds its own task's
outcome exactly when its index appeared in the schedule, and is
otherwise untouched. -/
theorem gatherFold_getElem {α : Type} (tasks : List α) (order : List Nat)
    (slots : List (Option α)) (hlen : slots.length = tasks.length) (i : Nat) :
    (order.foldl (gatherStep tasks) slots)[i]? =
      if i ∈ order ∧ i < tasks.length then tasks[i]?.map some
      else slots[i]? := by
  induction order generalizing slots with
  | nil => simp
  | cons a rest ih =>
    rw [List.foldl_cons, ih _ (by rw [gatherStep_length]; exact hlen)]
    by_cases hmem : i ∈ rest ∧ i < tasks.length
    · rw [if_pos hmem, if_pos ⟨List.mem_cons_of_mem a hmem.1, hmem.2⟩]
    · rw [if_neg hmem]
      unfold gatherStep
      cases h : tasks[a]? with
      | none =>
        have ha : ¬ a < tasks.length := by
          intro hlt
          rw [List.getElem?_eq_getElem hlt] at h
          exact Option.noConfusion h
        by_cases hia : i = a
        · subst hia
          rw [if_neg (fun hc => ha hc.2)]
        · rw [if_neg]
          intro hc
          rcases List.mem_cons.mp hc.1 with h1 | h1
          · exact hia h1
          · exact hmem ⟨h1, hc.2⟩
      | some t =>
        have ha : a < tasks.length := by
          by_contra hc
          rw [List.getElem?_eq_none (Nat.le_of_not_lt hc)] at h
          exact Option.noConfusion h
        by_cases hia : i = a
        · subst hia
          rw [if_pos ⟨List.mem_cons_self i rest, ha⟩,
            List.getElem?_set_eq_of_lt _ (by rw [hlen]; exact ha), h]
          rfl
        · rw [List.getElem?_set_ne (fun hc => hia hc.symm), if_neg]
          intro hc
          rcases List.mem_cons.mp hc.1 with h1 | h1
          · exact hia h1
          · exact hmem ⟨h1, hc.2⟩

/-- C2: batch dispatch over `N` domains yields exactly `N` slots; slot
`k` is the settled outcome of domain `k`'s own call (its payload or its
captured exception), independent of every other slot; and running the
gather under any completion order whatsoever produces the same result
list, in input order. -/
theorem batch_isolation {β : Type} (f : String → Except DTError β)
    (domains : List String) :
    (batch_domain_profiles f domains).length = domains.length ∧
    (∀ (k : Nat), (batch_domain_profiles f domains)[k]? = (domains[k]?).map f) ∧
    (∀ (k : Nat) (hk : k < domains.length) (e : DTError),
      f (domains.get ⟨k, hk⟩) = .error e →
      (batch_domain_profiles f domains)[k]? = some (.error e)) ∧
    (∀ order, order.Perm (List.range domains.length) →
      gatherWithOrder (batch_domain_profiles f domains) order =
        (batch_domain_profiles f domains).map some) := by
  refine ⟨by simp [batch_domain_profiles], ?_, ?_, ?_⟩
  · intro k
    rw [batch_domain_profiles, List.getElem?_map]
    rfl
  · intro k hk e he
    rw [batch_domain_profiles, List.getElem?_map, List.getElem?_eq_getElem hk,
      Option.map_some', asyncOutcome, show domains[k] = domains.get ⟨k, hk⟩ from rfl,
      he]
  · intro order hperm
    set tasks := batch_domain_profiles f domains with htasks
    have hn : tasks.length = domains.length := by
      simp [htasks, batch_domain_profiles]
    apply List.ext_getElem?
    intro i
    rw [gatherWithOrder, gatherFold_getElem tasks order _ (by simp)]
    have hmem : i ∈ order ↔ i < tasks.length := by
      rw [hperm.mem_iff, List.mem_range, hn]
    by_cases hi : i < tasks.length
    · rw [if_pos ⟨hmem.mpr hi, hi⟩, List.getElem?_map]
    · rw [if_neg (fun hc => hi hc.2), List.getElem?_map,
        List.getElem?_eq_none (by rw [List.length_replicate]; exact Nat.le_of_not_lt hi),
        List.getElem?_eq_none (Nat.le_of_not_lt hi)]
      rfl

/-- The C2 example outcome function: `b.com`'s underlying call raises a
service error, every other domain succeeds with its own payload. -/
def fC2 : String → Except DTError String := fun d =>
  if d = "b.com" then .error (.domainToolsError "boom") else .ok ("profile of " ++ d)

/-- Witness for C2: batch-checking `["a.com", "b.com"]` where `b.com`
raises yields the successful result in slot 0 and the captured error in
slot 1, and the completion order `[1, 0]` yields the same, input-ordered
result as `[0, 1]`. -/
theorem batch_isolation_witness :
    batch_domain_profiles fC2 ["a.com", "b.com"] =
        [.ok "profile of a.com", .error (.domainToolsError "boom")] ∧
      (batch_domain_profiles fC2 ["a.com", "b.com"])[1]? =
        some (.error (.domainToolsError "boom")) ∧
      gatherWithOrder (batch_domain_profiles fC2 ["a.com", "b.com"]) [1, 0] =
        (batch_domain_profiles fC2 ["a.com", "b.com"]).map some := by
  refine ⟨by rfl, ?_, ?_⟩
  · exact (batch_isolation fC2 ["a.com", "b.com"]).2.2.1 1 (by decide) _ (by rfl)
  · exact (batch_isolation fC2 ["a.com", "b.com"]).2.2.2 [1, 0] (by decide)

/-- The item loop adds exactly one node per item it is given. -/
theorem buildTreeItems_length (items : List JValue) (i m d : Nat) :
    (buildTreeItems items i m d).length = items.length := by
  induction items generalizing i with
  | nil => simp [buildTreeItems]
  | cons item rest ih =>
    rw [buildTreeItems]
    simp only [List.length_cons, ih]

/-- A chain of nested singleton dicts, `n` levels deep above a scalar. -/
def nestObj : Nat → JValue
  | 0 => .str "x"
  | n + 1 => .obj [("k", nestObj n)]

/-- The rendering of a deep `nestObj` chain: `n` nested branches ending
in the depth placeholder. -/
def chainNodes : Nat → List TreeNode
  | 0 => [TreeNode.leaf depthMarker]
  | n + 1 => [TreeNode.branch (objBranchLabel "k") (chainNodes n)]

/-- Below the depth cap, one level of a `nestObj` chain renders as one
branch around the next level at depth `d + 1`. -/
theorem nest_step (n d m : Nat) (hd : d < m) :
    buildTree (nestObj (n + 2)) m d =
      [TreeNode.branch (objBranchLabel "k") (buildTree (nestObj (n + 1)) m (d + 1))] := by
  have hne : ¬ d ≥ m := Nat.not_le.mpr hd
  rw [show nestObj (n + 2) = JValue.obj [("k", nestObj (n + 1))] from rfl]
  rw [buildTree]
  rw [if_neg hne]
  rw [buildTreeFields, buildTreeFields]
  rw [if_pos (by rw [show nestObj (n + 1) = JValue.obj [("k", nestObj n)] from rfl]; rfl)]

/-- Rendering a `nestObj` chain that reaches depth 10 produces the
branch chain truncated by the placeholder. -/
theorem nest_chain : ∀ (j d : Nat), d + j = 10 →
    buildTree (nestObj (j + 2)) 10 d = chainNodes j := by
  intro j
  induction j with
  | zero =>
    intro d hd
    have hd10 : d = 10 := by omega
    subst hd10
    rw [show nestObj (0 + 2) = JValue.obj [("k", nestObj 1)] from rfl,
      buildTree.eq_def, if_pos (by omega)]
    rfl
  | succ j ih =>
    intro d hd
    rw [show j + 1 + 2 = (j + 1) + 2 from rfl, nest_step (j + 1) d 10 (by omega),
      ih (d + 1) (by omega)]
    rfl

/-- C7: `_build_tree` truncates at the depth cap — any node reached at
depth ≥ `max_depth` renders as the single placeholder leaf, and a truthy
nested container one level down is rendered at depth `d + 1`, so with
`format_tree`'s `max_depth = 10` a 12-deep chain renders as 10 branches
ending in the placeholder — and a list longer than 10 items renders
exactly its first 10 items followed by the single count-remaining
marker. -/
theorem tree_truncation :
    (∀ (data : JValue) (m d : Nat), m ≤ d →
      buildTree data m d = [TreeNode.leaf depthMarker]) ∧
    (∀ (k : String) (v : JValue) (rest : List (String × JValue)) (m d : Nat),
      (isContainer v && isTruthy v) = true →
      buildTreeFields ((k, v) :: rest) m d =
        TreeNode.branch (objBranchLabel k) (buildTree v m (d + 1)) ::
          buildTreeFields rest m d) ∧
    (∀ (items : List JValue) (m d : Nat), d < m → 10 < items.length →
      buildTree (.arr items) m d =
        buildTreeItems (items.take 10) 0 m d ++
          [TreeNode.leaf (moreItemsText (items.length - 10))]) ∧
    (∀ (items : List JValue) (i m d : Nat),
      (buildTreeItems items i m d).length = items.length) ∧
    (∀ (items : List JValue) (m d : Nat), 10 < items.length →
      (buildTreeItems (items.take 10) 0 m d).length = 10) ∧
    format_tree (nestObj 12) = chainNodes 10 := by
  refine ⟨?_, ?_, ?_, buildTreeItems_length, ?_, ?_⟩
  · intro data m d h
    rw [buildTree.eq_def, if_pos h]
  · intro k v rest m d hv
    rw [buildTreeFields, if_pos hv]
  · intro items m d hd h10
    rw [buildTree, if_neg (Nat.not_le.mpr hd), if_pos h10]
  · intro items m d h10
    rw [buildTreeItems_length, List.length_take]
    omega
  · rw [format_tree, show (12 : Nat) = 10 + 2 from rfl]
    exact nest_chain 10 0 rfl

/-- Witness for C7: applying the truncation and long-list conjuncts at a
concrete 15-item list of nulls and at depth 10. -/
theorem tree_truncation_witness :
    buildTree (.str "y") 10 10 = [TreeNode.leaf depthMarker] ∧
      buildTree (.arr (List.replicate 15 JValue.null)) 10 0 =
        buildTreeItems (List.replicate 15 JValue.null |>.take 10) 0 10 0 ++
          [TreeNode.leaf (moreItemsText 5)] ∧
      (buildTreeItems (List.replicate 15 JValue.null |>.take 10) 0 10 0).length = 10 := by
  refine ⟨tree_truncation.1 (.str "y") 10 10 (by omega), ?_, ?_⟩
  · have h := tree_truncation.2.2.1 (List.replicate 15 JValue.null) 10 0
      (by omega) (by simp)
    simpa using h
  · exact tree_truncation.2.2.2.2.1 (List.replicate 15 JValue.null) 10 0 (by simp)

end DomaintoolsClient
